import Mathlib

/-!
Verification of the metrics aggregation engine of a Jira Streamlit dashboard
(`jira_client.py`, `pi_analytics.py`, `scrum_metrics.py`).

Modelling conventions, used throughout:

* Python strings are Lean `String`s.  The Python string operations the code
  uses (`str.split`, `str.startswith`, `str.strip`, `sorted`) are defined
  below on the underlying character lists, so that every definition can be
  evaluated by the kernel on concrete inputs.  Python's `sorted` compares
  strings lexicographically by code point, which is `pyLe` below.
* Python numbers (story points, rates) are modelled by `ℚ`; counts by `ℕ`.
* A fallible Python computation is `Except String α`; the error string names
  the exception (`KeyError: <column>`).
* A pandas `DataFrame` built with `pd.DataFrame(records)` has a column set
  that is empty exactly when `records` is the empty list.  Selecting a column
  that is not present (`df["status"]` on a frame built from `[]`) raises
  `KeyError`.  Filtering a frame preserves its columns.  This is modelled by
  `StoriesDF` carrying a `hasCols` flag.
* `getattr(obj, "field", default)` on a possibly-missing issue field is
  modelled by `Option.getD`; a field that is absent or null is `none`.
-/

/-- Code-point-wise lexicographic comparison of character lists: the order in
which Python compares strings (`a <= b`).  A proper prefix sorts first. -/
def lexLe : List Char → List Char → Bool
  | [], _ => true
  | _ :: _, [] => false
  | a :: as, b :: bs =>
    if a.toNat < b.toNat then true
    else if b.toNat < a.toNat then false
    else lexLe as bs

/-- The order Python's `sorted` uses on strings. -/
def pyLe (s t : String) : Prop := lexLe s.data t.data = true

instance : DecidableRel pyLe := fun _ _ => inferInstanceAs (Decidable (_ = true))

theorem lexLe_total : ∀ a b : List Char, lexLe a b = true ∨ lexLe b a = true
  | [], _ => Or.inl rfl
  | _ :: _, [] => Or.inr rfl
  | a :: as, b :: bs => by
    rcases Nat.lt_trichotomy a.toNat b.toNat with h | h | h
    · left; simp [lexLe, h]
    · rcases lexLe_total as bs with ih | ih
      · left; simp [lexLe, h, ih]
      · right; simp [lexLe, h.symm, ih]
    · right; simp [lexLe, h]

theorem lexLe_trans :
    ∀ a b c : List Char, lexLe a b = true → lexLe b c = true → lexLe a c = true
  | [], _, _, _, _ => rfl
  | _ :: _, [], _, h, _ => by simp [lexLe] at h
  | _ :: _, _ :: _, [], _, h => by simp [lexLe] at h
  | a :: as, b :: bs, c :: cs, h1, h2 => by
    simp only [lexLe] at h1 h2 ⊢
    rcases Nat.lt_trichotomy a.toNat b.toNat with hab | hab | hab
    · rcases Nat.lt_trichotomy b.toNat c.toNat with hbc | hbc | hbc
      · simp [Nat.lt_trans hab hbc]
      · simp [hbc ▸ hab]
      · simp [Nat.lt_asymm hbc, hbc] at h2
    · rcases Nat.lt_trichotomy b.toNat c.toNat with hbc | hbc | hbc
      · simp [hab ▸ hbc]
      · simp [hab, hbc, Nat.lt_irrefl] at h1 h2 ⊢
        exact lexLe_trans as bs cs h1 h2
      · simp [Nat.lt_asymm hbc, hbc] at h2
    · simp [Nat.lt_asymm hab, hab] at h1

theorem char_toNat_inj {a b : Char} (h : a.toNat = b.toNat) : a = b := by
  rw [← Char.ofNat_toNat a, h, Char.ofNat_toNat]

theorem lexLe_antisymm :
    ∀ a b : List Char, lexLe a b = true → lexLe b a = true → a = b
  | [], [], _, _ => rfl
  | [], _ :: _, _, h => by simp [lexLe] at h
  | _ :: _, [], h, _ => by simp [lexLe] at h
  | a :: as, b :: bs, h1, h2 => by
    rcases Nat.lt_trichotomy a.toNat b.toNat with h | h | h
    · simp [lexLe, Nat.lt_asymm h, h] at h2
    · simp only [lexLe, h, Nat.lt_irrefl, if_neg (Nat.lt_irrefl _)] at h1 h2
      rw [char_toNat_inj h, lexLe_antisymm as bs h1 h2]
    · simp [lexLe, Nat.lt_asymm h, h] at h1

instance : IsTotal String pyLe := ⟨fun s t => lexLe_total s.data t.data⟩

instance : IsTrans String pyLe := ⟨fun _ _ _ => lexLe_trans _ _ _⟩

instance : IsAntisymm String pyLe :=
  ⟨fun _ _ h1 h2 => String.ext (lexLe_antisymm _ _ h1 h2)⟩

/-- Python's `s.split(sep)` for a single-character separator, on character
lists: `"a_b".split("_") == ["a","b"]`, `"".split("_") == [""]`,
`"_".split("_") == ["", ""]`. -/
def splitChars (sep : Char) : List Char → List (List Char)
  | [] => [[]]
  | c :: rest =>
    let r := splitChars sep rest
    if c = sep then [] :: r
    else
      match r with
      | [] => [[c]]
      | p :: ps => (c :: p) :: ps

/-- Python's `s.split(sep)` (single-character separator). -/
def pysplit (s : String) (sep : Char) : List String :=
  (splitChars sep s.data).map String.mk

/-- Python's `s.startswith(pre)`. -/
def pyStartsWith (s pre : String) : Bool := pre.data.isPrefixOf s.data

/-- Whitespace characters removed by Python's `str.strip()` (the ones that
can realistically occur in a Jira text field). -/
def pyIsSpace (c : Char) : Bool := c = ' ' || c = '\t' || c = '\n' || c = '\r'

/-- Python's `s.strip()`. -/
def pyStrip (s : String) : String :=
  String.mk (((s.data.dropWhile pyIsSpace).reverse.dropWhile pyIsSpace).reverse)

theorem splitChars_ne_nil (sep : Char) : ∀ cs : List Char, splitChars sep cs ≠ []
  | [] => by simp [splitChars]
  | c :: rest => by
    simp only [splitChars]
    split
    · simp
    · match h : splitChars sep rest with
      | [] => simp
      | p :: ps => simp

theorem pysplit_length_pos (s : String) (sep : Char) : 0 < (pysplit s sep).length := by
  unfold pysplit
  rw [List.length_map]
  exact List.length_pos.mpr (splitChars_ne_nil sep s.data)

/-- Python's `sorted(list(set(l)))`: the distinct elements of `l` in ascending
string order. -/
def pySortedSet (l : List String) : List String :=
  List.insertionSort pyLe l.dedup

theorem mem_pySortedSet {l : List String} {x : String} :
    x ∈ pySortedSet l ↔ x ∈ l := by
  unfold pySortedSet
  rw [List.mem_insertionSort, List.mem_dedup]

theorem sorted_pySortedSet (l : List String) : List.Sorted pyLe (pySortedSet l) :=
  List.sorted_insertionSort pyLe l.dedup

theorem nodup_pySortedSet (l : List String) : (pySortedSet l).Nodup :=
  ((List.perm_insertionSort pyLe l.dedup).nodup_iff).mpr l.nodup_dedup

theorem pySortedSet_eq_of_mem_iff {l₁ l₂ : List String}
    (h : ∀ x, x ∈ l₁ ↔ x ∈ l₂) : pySortedSet l₁ = pySortedSet l₂ := by
  refine List.eq_of_perm_of_sorted ?_ (sorted_pySortedSet l₁) (sorted_pySortedSet l₂)
  refine ((List.perm_insertionSort pyLe l₁.dedup).trans ?_).trans
    (List.perm_insertionSort pyLe l₂.dedup).symm
  refine (List.perm_ext_iff_of_nodup l₁.nodup_dedup l₂.nodup_dedup).mpr ?_
  intro a
  rw [List.mem_dedup, List.mem_dedup]
  exact h a

/-! ## `jira_client.py` -/

/-- Raw issue record as surfaced by the `jira` library for the queries in
`jira_client.py`.  The `customfield_*` members model
`getattr(issue.fields, "customfield_*", default)`: `none` means the attribute
is absent (or null), `some v` that it carries the value `v`.  `epic_link`
models the "Epic Link" field, which appears in the story JQL query. -/
structure RawIssue where
  key : String
  summary : String
  status : String
  labels : List String
  assignee : Option String
  created : Int
  updated : Int
  customfield_10003 : Option ℚ
  customfield_20403 : Option String
  customfield_11702 : Option String
  epic_link : Option String
deriving DecidableEq

/-- Lines 190-196 of `jira_client.py` (`_extract_art_from_label`): scan the
labels; on a label starting with `PI-`, split on `_` and return the second
part when there is one — otherwise keep scanning. -/
def extract_art_from_label : List String → Option String
  | [] => none
  | label :: rest =>
    if pyStartsWith label "PI-" then
      let parts := pysplit label '_'
      if 1 < parts.length then some (parts.getD 1 "")
      else extract_art_from_label rest
    else extract_art_from_label rest

/-- Lines 198-204 of `jira_client.py` (`_extract_pi_from_label`): scan the
labels; on a label starting with `PI-`, split on `_` and return the first
part when the split is nonempty — otherwise keep scanning. -/
def extract_pi_from_label : List String → Option String
  | [] => none
  | label :: rest =>
    if pyStartsWith label "PI-" then
      let parts := pysplit label '_'
      if 0 < parts.length then some (parts.getD 0 "")
      else extract_pi_from_label rest
    else extract_pi_from_label rest

/-- Lines 101-111 of `jira_client.py` (`_get_workstream_safe`): the stripped
workstream custom field when present and non-blank, else `"Unknown"`. -/
def get_workstream_safe (i : RawIssue) : String :=
  match i.customfield_20403 with
  | some w => if pyStrip w ≠ "" then pyStrip w else "Unknown"
  | none => "Unknown"

/-- One row of the features frame built by `get_features_by_pi`
(lines 59-75 of `jira_client.py`). -/
structure Feature where
  key : String
  summary : String
  status : String
  art : Option String
  pi : Option String
  created : Int
  updated : Int
deriving DecidableEq

/-- Row construction of `get_features_by_pi` (lines 60-73). -/
def mkFeature (i : RawIssue) : Feature :=
  { key := i.key
    summary := i.summary
    status := i.status
    art := extract_art_from_label i.labels
    pi := extract_pi_from_label i.labels
    created := i.created
    updated := i.updated }

/-- Lines 52-75 of `jira_client.py` (`get_features_by_pi`): the input list is
the result of the JQL query for features carrying `pi_label`. -/
def get_features_by_pi (feature_issues : List RawIssue) : List Feature :=
  feature_issues.map mkFeature

/-- One row of the stories frame built by `get_stories_for_feature`
(lines 84-97 of `jira_client.py`). -/
structure Story where
  key : String
  summary : String
  status : String
  story_points : ℚ
  workstream : String
  feature_link : String
  assignee : String
  created : Int
  updated : Int
deriving DecidableEq

/-- Row construction of `get_stories_for_feature` (lines 86-97):
`story_points` is `getattr(..., "customfield_10003", 0) or 0`, `feature_link`
is `getattr(..., "customfield_11702", feature_key)` — the direct link field
with the caller's feature key as the `getattr` default. -/
def mkStoryRow (feature_key : String) (i : RawIssue) : Story :=
  { key := i.key
    summary := i.summary
    status := i.status
    story_points := i.customfield_10003.getD 0
    workstream := get_workstream_safe i
    feature_link := i.customfield_11702.getD feature_key
    assignee := i.assignee.getD "Unassigned"
    created := i.created
    updated := i.updated }

/-- Lines 77-99 of `jira_client.py` (`get_stories_for_feature`): the input
list is the result of the story JQL query for `feature_key`. -/
def get_stories_for_feature (story_issues : List RawIssue) (feature_key : String) :
    List Story :=
  story_issues.map (mkStoryRow feature_key)

/-- Membership in the DONE-SET: `status in ["Done", "Closed"]`. -/
def isDoneStatus (s : String) : Bool := s = "Done" || s = "Closed"

/-- Pandas stories frame: the rows plus whether the frame has columns.
`pd.DataFrame(records)` has columns exactly when `records` is nonempty, and
filtering preserves the columns. -/
structure StoriesDF where
  rows : List Story
  hasCols : Bool
deriving DecidableEq

/-- `pd.DataFrame(stories_data)`. -/
def pdDataFrame (rows : List Story) : StoriesDF := ⟨rows, !rows.isEmpty⟩

/-- `stories_df[stories_df["status"].isin(["Done", "Closed"])]` — raises
`KeyError` when the frame has no `status` column. -/
def dfFilterDone (df : StoriesDF) : Except String StoriesDF :=
  if df.hasCols then .ok ⟨df.rows.filter (fun s => isDoneStatus s.status), df.hasCols⟩
  else .error "KeyError: status"

/-- `stories_df[stories_df["workstream"] == workstream]` — raises `KeyError`
when the frame has no `workstream` column. -/
def dfFilterWorkstream (df : StoriesDF) (w : String) : Except String StoriesDF :=
  if df.hasCols then .ok ⟨df.rows.filter (fun s => s.workstream = w), df.hasCols⟩
  else .error "KeyError: workstream"

/-- `stories_df["story_points"].sum()` — raises `KeyError` when the frame has
no `story_points` column. -/
def dfSumPoints (df : StoriesDF) : Except String ℚ :=
  if df.hasCols then .ok (df.rows.map Story.story_points).sum
  else .error "KeyError: story_points"

/-- Accumulator of the per-feature loop of `get_pi_metrics`
(lines 153-176 of `jira_client.py`). -/
structure StoryTotals where
  total_stories : ℕ
  completed_stories : ℕ
  total_story_points : ℚ
  completed_story_points : ℚ
deriving DecidableEq

/-- One iteration of the loop of `get_pi_metrics` (lines 158-176): build the
stories frame for one feature, optionally filter it by workstream, and add
its counts and sums to the running totals.  The pandas column accesses come
in source order: the workstream filter (line 168), the DONE filter
(line 171), the two sums (lines 173-176).  Python's `if workstream:` is a
truthiness test, so an empty workstream string skips the filter too. -/
def pi_metrics_step (workstream : Option String) (acc : StoryTotals)
    (storyRows : List Story) : Except String StoryTotals :=
  let df0 := pdDataFrame storyRows
  match (match workstream with
         | some w => if w = "" then Except.ok df0 else dfFilterWorkstream df0 w
         | none => Except.ok df0) with
  | .error e => .error e
  | .ok stories_df =>
    match dfFilterDone stories_df with
    | .error e => .error e
    | .ok done_df =>
      match dfSumPoints stories_df with
      | .error e => .error e
      | .ok tp =>
        match dfSumPoints done_df with
        | .error e => .error e
        | .ok cp =>
          .ok { total_stories := acc.total_stories + stories_df.rows.length
                completed_stories := acc.completed_stories + done_df.rows.length
                total_story_points := acc.total_story_points + tp
                completed_story_points := acc.completed_story_points + cp }

/-- The whole per-feature loop of `get_pi_metrics`: `stories` maps a feature
key to the raw issues its story query returns. -/
def pi_metrics_loop (workstream : Option String) (stories : String → List RawIssue) :
    List Feature → StoryTotals → Except String StoryTotals
  | [], acc => .ok acc
  | f :: fs, acc =>
    match pi_metrics_step workstream acc (get_stories_for_feature (stories f.key) f.key) with
    | .error e => .error e
    | .ok acc' => pi_metrics_loop workstream stories fs acc'

/-- The guarded percentage used for every rate in the repository:
`(completed / total) * 100 if total > 0 else 0`. -/
def completion_rate (completed total : ℚ) : ℚ :=
  if 0 < total then completed / total * 100 else 0

/-- Result dictionary of `get_pi_metrics` (lines 178-188 of
`jira_client.py`). -/
structure PIMetrics where
  total_features : ℕ
  completed_features : ℕ
  total_stories : ℕ
  completed_stories : ℕ
  total_story_points : ℚ
  completed_story_points : ℚ
  feature_completion_rate : ℚ
  story_completion_rate : ℚ
  story_points_completion_rate : ℚ
deriving DecidableEq

/-- Lines 146-188 of `jira_client.py` (`get_pi_metrics`): `feature_issues`
is what the feature query for the PI label returns, `stories` maps each
feature key to what its story query returns.  `.ok none` models the early
`return {}` for an empty features frame; a raised `KeyError` is `.error`. -/
def get_pi_metrics (feature_issues : List RawIssue) (stories : String → List RawIssue)
    (workstream : Option String) : Except String (Option PIMetrics) :=
  let features := get_features_by_pi feature_issues
  if features.isEmpty then .ok none
  else
    match pi_metrics_loop workstream stories features ⟨0, 0, 0, 0⟩ with
    | .error e => .error e
    | .ok t =>
      let completed_features := (features.filter (fun f => isDoneStatus f.status)).length
      .ok (some
        { total_features := features.length
          completed_features := completed_features
          total_stories := t.total_stories
          completed_stories := t.completed_stories
          total_story_points := t.total_story_points
          completed_story_points := t.completed_story_points
          feature_completion_rate := completion_rate completed_features features.length
          story_completion_rate := completion_rate t.completed_stories t.total_stories
          story_points_completion_rate :=
            completion_rate t.completed_story_points t.total_story_points })

/-- Lines 206-225 of `jira_client.py` (`get_available_pis`, direct path):
the JQL asks for features carrying at least one of `pi_labels`; the loop then
collects, over the returned issues, every label that is in `pi_labels`, and
returns `sorted(list(found_pis))`. -/
def get_available_pis_direct (feature_issues : List RawIssue) (pi_labels : List String) :
    List String :=
  let issues := feature_issues.filter (fun i => i.labels.any (· ∈ pi_labels))
  pySortedSet (issues.flatMap (fun i => i.labels.filter (· ∈ pi_labels)))

/-- Lines 227-244 of `jira_client.py` (`get_available_pis`, fallback path):
scan ALL features; keep a label when it is in `pi_labels` (if any were given
— the Python truthiness test treats `None` and `[]` alike, modelled by
`pi_labels.isEmpty`) or, with no given labels, when it starts with `PI-`;
return `sorted(list(pis))`. -/
def get_available_pis_fallback (feature_issues : List RawIssue) (pi_labels : List String) :
    List String :=
  pySortedSet (feature_issues.flatMap (fun i => i.labels.filter
    (fun l => if pi_labels.isEmpty then pyStartsWith l "PI-" else l ∈ pi_labels)))

/-- Lines 113-144 of `jira_client.py` (`get_all_workstreams`): the input is
the list of workstream values extracted from the queried issues by
`_get_workstream_safe` (one per issue); the Python set the code builds from
them is modelled by deduplication.  Sort the non-`"Unknown"` values and
append `"Unknown"` when it occurred. -/
def get_all_workstreams (workstream_values : List String) : List String :=
  pySortedSet (workstream_values.filter (fun w => w ≠ "Unknown")) ++
    (if "Unknown" ∈ workstream_values then ["Unknown"] else [])

/-! ## `pi_analytics.py` -/

/-- Helper for `pdUnique`: keep the values not seen before, in order. -/
def pdUniqueAux (seen : List String) : List String → List String
  | [] => []
  | x :: xs => if x ∈ seen then pdUniqueAux seen xs else x :: pdUniqueAux (x :: seen) xs

/-- Pandas `Series.unique()`: the distinct values in first-occurrence order. -/
def pdUnique (l : List String) : List String := pdUniqueAux [] l

/-- One iteration of the inner loop of `get_pi_objectives_data`
(lines 30-35 of `pi_analytics.py`): build one feature's stories frame and add
`stories_df["story_points"].sum()` and the DONE-filtered sum to the running
`(total, completed)` pair, with the column accesses in source order. -/
def objectives_step (acc : ℚ × ℚ) (storyRows : List Story) : Except String (ℚ × ℚ) :=
  let stories_df := pdDataFrame storyRows
  match dfSumPoints stories_df with
  | .error e => .error e
  | .ok tp =>
    match dfFilterDone stories_df with
    | .error e => .error e
    | .ok done_df =>
      match dfSumPoints done_df with
      | .error e => .error e
      | .ok cp => .ok (acc.1 + tp, acc.2 + cp)

/-- The inner loop of `get_pi_objectives_data` over one ART's features. -/
def objectives_loop (stories : String → List RawIssue) :
    List Feature → ℚ × ℚ → Except String (ℚ × ℚ)
  | [], acc => .ok acc
  | f :: fs, acc =>
    match objectives_step acc (get_stories_for_feature (stories f.key) f.key) with
    | .error e => .error e
    | .ok acc' => objectives_loop stories fs acc'

/-- Per-ART dictionary built by `get_pi_objectives_data`
(lines 37-44 of `pi_analytics.py`). -/
structure ArtObjectives where
  committed_features : ℕ
  delivered_features : ℕ
  committed_points : ℚ
  delivered_points : ℚ
  feature_predictability : ℚ
  points_predictability : ℚ
deriving DecidableEq

/-- Body of the per-ART loop of `get_pi_objectives_data` (lines 21-44). -/
def art_objectives (stories : String → List RawIssue) (features : List Feature)
    (art : String) : Except String ArtObjectives :=
  let art_features := features.filter (fun f => f.art = some art)
  match objectives_loop stories art_features (0, 0) with
  | .error e => .error e
  | .ok tc =>
    let delivered := (art_features.filter (fun f => isDoneStatus f.status)).length
    .ok { committed_features := art_features.length
          delivered_features := delivered
          committed_points := tc.1
          delivered_points := tc.2
          feature_predictability := completion_rate delivered art_features.length
          points_predictability := completion_rate tc.2 tc.1 }

/-- The loop of `get_pi_objectives_data` over the distinct ART values. -/
def objectives_arts_loop (stories : String → List RawIssue) (features : List Feature) :
    List String → Except String (List (String × ArtObjectives))
  | [] => .ok []
  | a :: as =>
    match art_objectives stories features a with
    | .error e => .error e
    | .ok d =>
      match objectives_arts_loop stories features as with
      | .error e => .error e
      | .ok rest => .ok ((a, d) :: rest)

/-- Lines 13-46 of `pi_analytics.py` (`get_pi_objectives_data`): group the
features of a PI by their `art` label part (rows whose `art` is missing are
skipped by the `pd.isna` test), and aggregate each group's story points.
`.ok []` models the early `return {}` for an empty features frame. -/
def get_pi_objectives_data (feature_issues : List RawIssue)
    (stories : String → List RawIssue) : Except String (List (String × ArtObjectives)) :=
  let features := get_features_by_pi feature_issues
  if features.isEmpty then .ok []
  else objectives_arts_loop stories features (pdUnique (features.filterMap Feature.art))

/-- Line 179 of `pi_analytics.py`: the average of the two predictabilities. -/
def predictability_score (d : ArtObjectives) : ℚ :=
  (d.feature_predictability + d.points_predictability) / 2

/-- Line 182 of `pi_analytics.py`: `min(100, points_predictability * 1.2)`. -/
def quality_score (d : ArtObjectives) : ℚ := min 100 (d.points_predictability * 1.2)

/-- Line 185 of `pi_analytics.py`:
`predictability_score * 0.6 + quality_score * 0.4`. -/
def overall_score (d : ArtObjectives) : ℚ :=
  predictability_score d * 0.6 + quality_score d * 0.4

/-! ## `scrum_metrics.py` -/

/-- One entry of `history.items` in an issue changelog: a single field
change.  `toString` is the jira library's name for the new value. -/
structure ChangeItem where
  field : String
  toString : String
deriving DecidableEq

/-- One entry of `issue.changelog.histories`: a timestamped group of field
changes.  Timestamps are modelled at day granularity (the burndown code only
ever compares `.date()` values). -/
structure History where
  created : Int
  items : List ChangeItem
deriving DecidableEq

/-- Issue shape used by `calculate_cycle_time` and `create_burndown_chart`:
note that the code reads `customfield_story_points`, with `getattr` default
`0`. -/
structure ScrumIssue where
  key : String
  created : Int
  customfield_story_points : Option ℚ
  histories : List History
deriving DecidableEq

/-- The item test on line 62 of `scrum_metrics.py`:
`item.field == "status" and item.toString in ["Done", "Closed"]`. -/
def isDoneItem (it : ChangeItem) : Bool :=
  it.field = "status" && isDoneStatus it.toString

/-- Lines 59-66 of `scrum_metrics.py`: scan `issue.changelog.histories` in
the order the source supplies them; on the first history containing a DONE
status change, take that history's timestamp and stop. -/
def findDoneDate (histories : List History) : Option Int :=
  (histories.find? (fun h => h.items.any isDoneItem)).map History.created

/-- Sort a changelog by timestamp ascending (what the spec says must happen
before the scan; the code never does this). -/
def sortHistories (histories : List History) : List History :=
  List.insertionSort (fun a b => a.created ≤ b.created) histories

/-- Modelled from the spec (`first_transition_into`, §4.3): sort the history
by timestamp ascending, then return the timestamp of the first DONE
transition.  This is the claimed behaviour, stated for comparison with
`findDoneDate`. -/
def findDoneDateSorted (histories : List History) : Option Int :=
  findDoneDate (sortHistories histories)

/-- One row of the cycle-time frame (lines 70-76 of `scrum_metrics.py`). -/
structure CycleRecord where
  issue_key : String
  created : Int
  completed : Int
  cycle_time_days : Int
  story_points : ℚ
deriving DecidableEq

/-- Row construction on lines 69-76 of `scrum_metrics.py`. -/
def cycleRecord (i : ScrumIssue) (done_date : Int) : CycleRecord :=
  { issue_key := i.key
    created := i.created
    completed := done_date
    cycle_time_days := done_date - i.created
    story_points := i.customfield_story_points.getD 0 }

/-- Lines 51-78 of `scrum_metrics.py` (`calculate_cycle_time`): one record
per issue whose changelog scan found a DONE transition; issues with none are
skipped. -/
def calculate_cycle_time (issues : List ScrumIssue) : List CycleRecord :=
  issues.filterMap (fun i => (findDoneDate i.histories).map (cycleRecord i))

/-- Lines 93-100 of `scrum_metrics.py`: for every issue, for every history
dated at or before `date`, for every DONE status change in that history, add
the issue's story points — so one issue contributes once per matching item,
not once. -/
def points_completed_by_date (issues : List ScrumIssue) (date : Int) : ℚ :=
  (issues.map (fun i =>
    ((i.histories.filter (fun h => h.created ≤ date)).map
      (fun h => ((h.items.filter isDoneItem).length : ℚ) *
        i.customfield_story_points.getD 0)).sum)).sum

/-- Modelled from the spec (§4.4): the cumulative completed points as of
`date` are the points of the issues whose FIRST DONE transition (on the
sorted history) happened at or before `date`, each issue counted once. -/
def cumulative_completed_spec (issues : List ScrumIssue) (date : Int) : ℚ :=
  ((issues.filter (fun i =>
    match findDoneDateSorted i.histories with
    | some d => d ≤ date
    | none => false)).map (fun i => i.customfield_story_points.getD 0)).sum

/-- One row of the burndown series (lines 103-107 of `scrum_metrics.py`). -/
structure BurndownRow where
  date : Int
  remaining_points : ℚ
  ideal_remaining : ℚ
deriving DecidableEq

/-- Lines 80-107 of `scrum_metrics.py` (`create_burndown_chart`, data part):
`window_start` models `datetime.now() - timedelta(days=14)` at day
granularity; for each of the 15 day offsets the remaining points are the
total minus `points_completed_by_date`, and the ideal line is
`total_points - total_points / 14 * day`. -/
def create_burndown_rows (issues : List ScrumIssue) (window_start : Int) :
    List BurndownRow :=
  let total_points := (issues.map (fun i => i.customfield_story_points.getD 0)).sum
  (List.range 15).map (fun day =>
    { date := window_start + day
      remaining_points := total_points - points_completed_by_date issues (window_start + day)
      ideal_remaining := total_points - total_points / 14 * day })

/-- Issue shape used by `calculate_team_velocity` (lines 13-37), which reads
`customfield_sprint` and `customfield_story_points` via `getattr`. -/
structure SprintIssue where
  key : String
  status : String
  customfield_sprint : Option String
  customfield_story_points : Option ℚ
deriving DecidableEq

/-- Per-sprint accumulator dictionary (lines 24-37 of `scrum_metrics.py`). -/
structure SprintAgg where
  total_points : ℚ
  completed_points : ℚ
  total_stories : ℕ
  completed_stories : ℕ
deriving DecidableEq

/-- Update of a Python dict modelled as an insertion-ordered association
list: apply `f` to the entry at `k`, inserting `f init` at the end when `k`
is not yet a key. -/
def assocUpdate (m : List (String × SprintAgg)) (k : String)
    (f : SprintAgg → SprintAgg) (init : SprintAgg) : List (String × SprintAgg) :=
  match m with
  | [] => [(k, f init)]
  | (k0, v) :: rest =>
    if k0 = k then (k0, f v) :: rest else (k0, v) :: assocUpdate rest k f init

/-- One iteration of the issue loop of `calculate_team_velocity`
(lines 18-37): skipped when the sprint field is missing or falsy; otherwise
the issue's points and story count are added to its sprint's totals, and to
the completed totals as well when the status is in the DONE-SET. -/
def velocity_fold (acc : List (String × SprintAgg)) (i : SprintIssue) :
    List (String × SprintAgg) :=
  match i.customfield_sprint with
  | none => acc
  | some sp =>
    if sp = "" then acc
    else
      let pts := i.customfield_story_points.getD 0
      assocUpdate acc sp
        (fun d =>
          if isDoneStatus i.status then
            { total_points := d.total_points + pts
              completed_points := d.completed_points + pts
              total_stories := d.total_stories + 1
              completed_stories := d.completed_stories + 1 }
          else
            { d with
              total_points := d.total_points + pts
              total_stories := d.total_stories + 1 })
        ⟨0, 0, 0, 0⟩

/-- One entry of the velocity series (lines 41-47 of `scrum_metrics.py`). -/
structure VelocityPoint where
  sprint : String
  velocity : ℚ
  planned_points : ℚ
  completion_rate : ℚ
deriving DecidableEq

/-- Lines 13-49 of `scrum_metrics.py` (`calculate_team_velocity`): fold the
issues into the per-sprint dictionary, keep the last `num_sprints` entries in
insertion order (Python's `[-n:]`, which is the whole list when `n = 0`), and
emit one `VelocityPoint` per kept sprint. -/
def calculate_team_velocity (issues : List SprintIssue) (num_sprints : ℕ) :
    List VelocityPoint :=
  let sprint_data := issues.foldl velocity_fold []
  let kept := if num_sprints = 0 then sprint_data
    else sprint_data.drop (sprint_data.length - num_sprints)
  kept.map (fun p =>
    { sprint := p.1
      velocity := p.2.completed_points
      planned_points := p.2.total_points
      completion_rate := completion_rate p.2.completed_points p.2.total_points })

deriving instance DecidableEq for Except

/-! ## Label extraction (claims C5, C10) -/

/-- Modelled from the spec (§4.1, §8.3): take the FIRST label with prefix
`PI-` and read the pi part off its split — the claimed behaviour of
`_extract_pi_from_label`, for comparison. -/
def extract_pi_spec (labels : List String) : Option String :=
  match labels.find? (fun l => pyStartsWith l "PI-") with
  | none => none
  | some l => (pysplit l '_').get? 0

/-- Modelled from the spec (§4.1, §8.3): take the FIRST label with prefix
`PI-` and read the art part off its split (absent when that label has no
second segment) — the claimed behaviour of `_extract_art_from_label`, for
comparison. -/
def extract_art_spec (labels : List String) : Option String :=
  match labels.find? (fun l => pyStartsWith l "PI-") with
  | none => none
  | some l => (pysplit l '_').get? 1

theorem extract_pi_find_char : ∀ labels : List String,
    extract_pi_from_label labels =
      (labels.find? (fun l => pyStartsWith l "PI-")).map
        (fun l => (pysplit l '_').getD 0 "")
  | [] => rfl
  | l :: ls => by
    by_cases h : pyStartsWith l "PI-" = true
    · simp only [List.find?_cons, h]
      simp [extract_pi_from_label, h, pysplit_length_pos]
    · have hf : pyStartsWith l "PI-" = false := by simpa using h
      simp only [List.find?_cons, hf]
      simp only [extract_pi_from_label, hf, Bool.false_eq_true, if_false]
      exact extract_pi_find_char ls

theorem extract_art_find_char : ∀ labels : List String,
    extract_art_from_label labels =
      (labels.find? (fun l =>
        pyStartsWith l "PI-" && decide (1 < (pysplit l '_').length))).map
        (fun l => (pysplit l '_').getD 1 "")
  | [] => rfl
  | l :: ls => by
    by_cases h1 : pyStartsWith l "PI-" = true
    · by_cases h2 : 1 < (pysplit l '_').length
      · have hq : (pyStartsWith l "PI-" &&
            decide (1 < (pysplit l '_').length)) = true := by simp [h1, h2]
        simp only [List.find?_cons, hq]
        simp [extract_art_from_label, h1, h2]
      · have hq : (pyStartsWith l "PI-" &&
            decide (1 < (pysplit l '_').length)) = false := by simp [h1, h2]
        simp only [List.find?_cons, hq]
        simp only [extract_art_from_label, h1, if_true, h2, if_false]
        exact extract_art_find_char ls
    · have hf : pyStartsWith l "PI-" = false := by simpa using h1
      have hq : (pyStartsWith l "PI-" &&
          decide (1 < (pysplit l '_').length)) = false := by simp [hf]
      simp only [List.find?_cons, hq]
      simp only [extract_art_from_label, hf, Bool.false_eq_true, if_false]
      exact extract_art_find_char ls

/-- C5 counterexample: with labels `["PI-4", "PI-5_ArtX"]` the first
`PI-` label is `"PI-4"`, so under the claim art would be undefined; the code
instead keeps scanning past `"PI-4"` (no underscore) and takes the art from
the LATER label `"PI-5_ArtX"`. -/
theorem C5_art_not_from_first_label :
    extract_art_from_label ["PI-4", "PI-5_ArtX"] = some "ArtX" ∧
    extract_art_spec ["PI-4", "PI-5_ArtX"] = none ∧
    extract_pi_from_label ["PI-4", "PI-5_ArtX"] = some "PI-4" := by decide

/-- C5 (amended): `pi` is taken from the first label with prefix `PI-`
(first `_` segment); `art` is taken from the first `PI-` label that has a
second `_` segment — possibly a later label than the one `pi` came from —
and is undefined when no `PI-` label has one; both are undefined when no
label has prefix `PI-`.  The spec's single-label examples all hold. -/
theorem C5_label_extraction_amended :
    (∀ labels : List String,
      extract_pi_from_label labels =
        (labels.find? (fun l => pyStartsWith l "PI-")).map
          (fun l => (pysplit l '_').getD 0 "")) ∧
    (∀ labels : List String,
      extract_art_from_label labels =
        (labels.find? (fun l =>
          pyStartsWith l "PI-" && decide (1 < (pysplit l '_').length))).map
          (fun l => (pysplit l '_').getD 1 "")) ∧
    extract_pi_from_label ["PI-4_PlatformART"] = some "PI-4" ∧
    extract_art_from_label ["PI-4_PlatformART"] = some "PlatformART" ∧
    extract_pi_from_label ["PI-4"] = some "PI-4" ∧
    extract_art_from_label ["PI-4"] = none ∧
    extract_pi_from_label ["SomeOtherLabel"] = none ∧
    extract_art_from_label ["SomeOtherLabel"] = none :=
  ⟨extract_pi_find_char, extract_art_find_char, by decide, by decide, by decide,
   by decide, by decide, by decide⟩

/-- C10: whenever `_extract_art_from_label` finds an art, some label starts
with `PI-`, so `_extract_pi_from_label` finds a pi as well — an issue's art
is never defined while its pi is undefined. -/
theorem C10_art_defined_implies_pi_defined (labels : List String) (a : String)
    (h : extract_art_from_label labels = some a) :
    ∃ p, extract_pi_from_label labels = some p := by
  rw [extract_art_find_char] at h
  rw [extract_pi_find_char]
  obtain ⟨l0, hfind, -⟩ := Option.map_eq_some'.mp h
  have hl0 := List.find?_some hfind
  have hmem := List.mem_of_find?_eq_some hfind
  have hp : pyStartsWith l0 "PI-" = true := by
    simp only [Bool.and_eq_true, decide_eq_true_eq] at hl0
    exact hl0.1
  have hs : (labels.find? (fun l => pyStartsWith l "PI-")).isSome := by
    rw [List.find?_isSome]
    exact ⟨l0, hmem, hp⟩
  obtain ⟨l1, hl1⟩ := Option.isSome_iff_exists.mp hs
  exact ⟨_, by rw [hl1]; rfl⟩

/-- Witness for C10 at a concrete label list. -/
theorem C10_witness :
    extract_art_from_label ["PI-4_ArtX"] = some "ArtX" ∧
    ∃ p, extract_pi_from_label ["PI-4_ArtX"] = some p :=
  ⟨by decide, C10_art_defined_implies_pi_defined ["PI-4_ArtX"] "ArtX" (by decide)⟩

/-! ## Workstream sort (claim C8) and available-PI discovery (claim C7) -/

/-- C8: `get_all_workstreams` returns exactly the input values (as a set),
with the non-`"Unknown"` ones first in ascending order, without duplicates,
and with `"Unknown"` last exactly when it occurs; the spec's example holds. -/
theorem C8_workstream_sort :
    (∀ ws : List String,
      (∀ w, w ∈ get_all_workstreams ws ↔ w ∈ ws) ∧
      List.Sorted pyLe ((get_all_workstreams ws).filter (fun w => w ≠ "Unknown")) ∧
      (get_all_workstreams ws).Nodup ∧
      ("Unknown" ∈ ws → (get_all_workstreams ws).getLast? = some "Unknown") ∧
      ("Unknown" ∉ ws → "Unknown" ∉ get_all_workstreams ws)) ∧
    get_all_workstreams ["Unknown", "Beta", "Alpha"] = ["Alpha", "Beta", "Unknown"] := by
  constructor
  · intro ws
    have hmem : ∀ w, w ∈ get_all_workstreams ws ↔ w ∈ ws := by
      intro w
      unfold get_all_workstreams
      by_cases hw : w = "Unknown" <;> by_cases hU : "Unknown" ∈ ws <;>
        simp [List.mem_append, mem_pySortedSet, List.mem_filter, hw, hU]
    have hfilter : (get_all_workstreams ws).filter (fun w => w ≠ "Unknown") =
        pySortedSet (ws.filter (fun w => w ≠ "Unknown")) := by
      unfold get_all_workstreams
      rw [List.filter_append]
      have h1 : (pySortedSet (ws.filter (fun w => w ≠ "Unknown"))).filter
          (fun w => w ≠ "Unknown") = pySortedSet (ws.filter (fun w => w ≠ "Unknown")) := by
        refine List.filter_eq_self.mpr (fun a ha => ?_)
        have := mem_pySortedSet.mp ha
        rw [List.mem_filter] at this
        exact this.2
      have h2 : (if "Unknown" ∈ ws then ["Unknown"] else []).filter
          (fun w => w ≠ "Unknown") = [] := by
        split <;> decide
      rw [h1, h2, List.append_nil]
    refine ⟨hmem, ?_, ?_, ?_, ?_⟩
    · rw [hfilter]
      exact sorted_pySortedSet _
    · unfold get_all_workstreams
      rw [List.nodup_append]
      refine ⟨nodup_pySortedSet _, ?_, ?_⟩
      · split <;> simp
      · intro a ha hb
        have := mem_pySortedSet.mp ha
        rw [List.mem_filter] at this
        have hne : a ≠ "Unknown" := by simpa using this.2
        revert hb
        split <;> simp [hne]
    · intro hU
      unfold get_all_workstreams
      rw [if_pos hU]
      exact List.getLast?_concat _
    · intro hU hIn
      exact hU ((hmem _).mp hIn)
  · decide

/-- Witness for C8 at a concrete workstream list. -/
theorem C8_witness :
    "Unknown" ∈ ["Zeta", "Unknown", "Alpha"] ∧
    (get_all_workstreams ["Zeta", "Unknown", "Alpha"]).getLast? = some "Unknown" :=
  ⟨by decide, (C8_workstream_sort.1 ["Zeta", "Unknown", "Alpha"]).2.2.2.1 (by decide)⟩

/-- C7: with a nonempty preferred label list (Python's truthiness test on
the argument), scanning all features and filtering client-side yields the
same sorted distinct label list as the direct targeted query path computes
on the same underlying data. -/
theorem C7_fallback_equivalence (feature_issues : List RawIssue)
    (pi_labels : List String) (h : pi_labels ≠ []) :
    get_available_pis_fallback feature_issues pi_labels =
      get_available_pis_direct feature_issues pi_labels := by
  unfold get_available_pis_fallback get_available_pis_direct
  have hne : pi_labels.isEmpty = false := by
    simpa [List.isEmpty_iff] using h
  apply pySortedSet_eq_of_mem_iff
  intro x
  simp only [hne, Bool.false_eq_true, if_false, List.mem_flatMap, List.mem_filter,
    decide_eq_true_eq, List.any_eq_true]
  constructor
  · rintro ⟨i, hi, hxl, hxp⟩
    exact ⟨i, ⟨hi, ⟨x, hxl, by simpa using hxp⟩⟩, hxl, hxp⟩
  · rintro ⟨i, ⟨hi, -⟩, hx⟩
    exact ⟨i, hi, hx⟩

/-- A concrete feature issue for the C7 witness. -/
def piWitnessIssue : RawIssue :=
  { key := "F-9"
    summary := "f"
    status := "Done"
    labels := ["PI-4", "PI-7", "Team"]
    assignee := none
    created := 0
    updated := 0
    customfield_10003 := none
    customfield_20403 := none
    customfield_11702 := none
    epic_link := none }

/-- Witness for C7 at a concrete issue list and label list. -/
theorem C7_witness :
    (["PI-4", "PI-5"] : List String) ≠ [] ∧
    get_available_pis_fallback [piWitnessIssue] ["PI-4", "PI-5"] =
      get_available_pis_direct [piWitnessIssue] ["PI-4", "PI-5"] :=
  ⟨by decide, C7_fallback_equivalence [piWitnessIssue] ["PI-4", "PI-5"] (by decide)⟩

/-! ## Story feature-link resolution (claim C6) -/

/-- Modelled from the spec (§4.1): prefer the direct link field, fall back to
the epic-link field, finally fall back to the caller's feature key — the
claimed resolution chain, for comparison with the code's. -/
def feature_link_spec (i : RawIssue) (feature_key : String) : String :=
  match i.customfield_11702 with
  | some v => v
  | none =>
    match i.epic_link with
    | some e => e
    | none => feature_key

/-- A story issue with no direct link field but with an epic link. -/
def epicOnlyIssue : RawIssue :=
  { key := "S-1"
    summary := "s"
    status := "To Do"
    labels := []
    assignee := none
    created := 0
    updated := 0
    customfield_10003 := none
    customfield_20403 := none
    customfield_11702 := none
    epic_link := some "EPIC-1" }

/-- C6 counterexample: for an issue whose direct link field is absent but
whose epic-link field is set, the code's row carries the caller-supplied
feature key, not the epic link the claim requires. -/
theorem C6_no_epic_link_fallback :
    (get_stories_for_feature [epicOnlyIssue] "F-1").map Story.feature_link = ["F-1"] ∧
    feature_link_spec epicOnlyIssue "F-1" = "EPIC-1" ∧
    "F-1" ≠ "EPIC-1" := by decide

/-- C6 (amended): `feature_link` is the direct link field when that
attribute is present and otherwise the caller-supplied feature key; the
epic-link field is used only inside the story JQL query and never consulted
for the row value — replacing it everywhere leaves the rows unchanged. -/
theorem C6_feature_link_amended :
    ∀ (story_issues : List RawIssue) (feature_key : String),
      (get_stories_for_feature story_issues feature_key).map Story.feature_link =
        story_issues.map (fun i => i.customfield_11702.getD feature_key) ∧
      ∀ e : Option String,
        get_stories_for_feature (story_issues.map (fun i => { i with epic_link := e }))
            feature_key =
          get_stories_for_feature story_issues feature_key := by
  intro issues fk
  constructor
  · simp [get_stories_for_feature, mkStoryRow]
  · intro e
    simp only [get_stories_for_feature, List.map_map]
    exact List.map_congr_left (fun i _ => rfl)

/-! ## Composite scores (claim C9) -/

/-- C9: on predictability inputs in `[0, 100]` the three scores satisfy
their defining formulas, all lie in `[0, 100]`, and a zero points
predictability gives a zero quality score and an overall score of
`predictability_score * 0.6`. -/
theorem C9_score_calculator (d : ArtObjectives)
    (h1 : 0 ≤ d.feature_predictability) (h2 : d.feature_predictability ≤ 100)
    (h3 : 0 ≤ d.points_predictability) (h4 : d.points_predictability ≤ 100) :
    predictability_score d = (d.feature_predictability + d.points_predictability) / 2 ∧
    quality_score d = min 100 (d.points_predictability * 1.2) ∧
    overall_score d = predictability_score d * 0.6 + quality_score d * 0.4 ∧
    (0 ≤ predictability_score d ∧ predictability_score d ≤ 100) ∧
    (0 ≤ quality_score d ∧ quality_score d ≤ 100) ∧
    (0 ≤ overall_score d ∧ overall_score d ≤ 100) ∧
    (d.points_predictability = 0 →
      quality_score d = 0 ∧ overall_score d = predictability_score d * 0.6) := by
  have hps0 : 0 ≤ predictability_score d := by
    unfold predictability_score; linarith
  have hps1 : predictability_score d ≤ 100 := by
    unfold predictability_score; linarith
  have hqs0 : 0 ≤ quality_score d := by
    unfold quality_score
    exact le_min (by norm_num) (by nlinarith)
  have hqs1 : quality_score d ≤ 100 := min_le_left _ _
  refine ⟨rfl, rfl, rfl, ⟨hps0, hps1⟩, ⟨hqs0, hqs1⟩, ⟨?_, ?_⟩, ?_⟩
  · unfold overall_score; nlinarith
  · unfold overall_score; nlinarith
  · intro h0
    have hq : quality_score d = 0 := by
      unfold quality_score
      rw [h0]
      norm_num
    refine ⟨hq, ?_⟩
    unfold overall_score
    rw [hq]
    ring

/-- Witness for C9 at a concrete per-ART record with zero points
predictability. -/
theorem C9_witness :
    quality_score ⟨4, 2, 100, 0, 50, 0⟩ = 0 ∧
    overall_score ⟨4, 2, 100, 0, 50, 0⟩ = predictability_score ⟨4, 2, 100, 0, 50, 0⟩ * 0.6 :=
  (C9_score_calculator ⟨4, 2, 100, 0, 50, 0⟩ (by norm_num) (by norm_num)
    (by norm_num) (by norm_num)).2.2.2.2.2.2 rfl

/-! ## Cycle-time scan (claim C2) and burndown (claim C3) -/

theorem find?_min_of_sorted {p : History → Bool} :
    ∀ hs : List History, List.Sorted (fun a b : History => a.created ≤ b.created) hs →
      ∀ h0, hs.find? p = some h0 → ∀ h ∈ hs, p h = true → h0.created ≤ h.created := by
  intro hs
  induction hs with
  | nil => intro _ h0 hf; simp at hf
  | cons x xs ih =>
    intro hsort h0 hf h hmem hp
    rw [List.sorted_cons] at hsort
    cases hpx : p x with
    | true =>
      have hx : h0 = x := by
        rw [List.find?_cons, hpx] at hf
        exact (Option.some_inj.mp hf).symm
      subst hx
      rcases List.mem_cons.mp hmem with rfl | hmem'
      · exact le_refl _
      · exact hsort.1 h hmem'
    | false =>
      have hf' : xs.find? p = some h0 := by
        rw [List.find?_cons, hpx] at hf
        exact hf
      rcases List.mem_cons.mp hmem with rfl | hmem'
      · rw [hpx] at hp; cases hp
      · exact ih hsort.2 h0 hf' h hmem' hp

/-- A changelog whose histories arrive latest-first: the DONE transition at
time 10 is listed before the earlier one at time 5. -/
def outOfOrderHistories : List History :=
  [⟨10, [⟨"status", "Done"⟩]⟩, ⟨5, [⟨"status", "Done"⟩]⟩]

/-- C2 counterexample: the code does not sort the changelog; on a
latest-first changelog it returns the time of the first DONE event in source
order (10), not the chronologically first one (5) the claim requires. -/
theorem C2_scan_does_not_sort :
    findDoneDate outOfOrderHistories = some 10 ∧
    findDoneDateSorted outOfOrderHistories = some 5 ∧
    findDoneDate outOfOrderHistories ≠ findDoneDateSorted outOfOrderHistories := by
  decide

/-- C2 (amended): the scan takes the histories in their given order, so only
on an already-ascending changelog does it return the chronologically first
DONE transition; it returns `none` exactly when no DONE transition exists,
and `calculate_cycle_time` emits no record at all for such issues (they are
excluded, never counted as zero). -/
theorem C2_first_done_scan_amended :
    (∀ hs : List History,
      List.Sorted (fun a b : History => a.created ≤ b.created) hs →
      ∀ t, findDoneDate hs = some t →
        (∃ h ∈ hs, h.items.any isDoneItem = true ∧ h.created = t) ∧
        ∀ h ∈ hs, h.items.any isDoneItem = true → t ≤ h.created) ∧
    (∀ hs : List History,
      findDoneDate hs = none ↔ ∀ h ∈ hs, h.items.any isDoneItem = false) ∧
    (∀ (issues : List ScrumIssue) (r : CycleRecord),
      r ∈ calculate_cycle_time issues ↔
        ∃ i ∈ issues, ∃ d, findDoneDate i.histories = some d ∧ r = cycleRecord i d) := by
  refine ⟨?_, ?_, ?_⟩
  · intro hs hsort t ht
    obtain ⟨h0, hf, hc⟩ := Option.map_eq_some'.mp ht
    refine ⟨⟨h0, List.mem_of_find?_eq_some hf, by simpa using List.find?_some hf, hc⟩, ?_⟩
    intro h hmem hp
    rw [← hc]
    exact find?_min_of_sorted hs hsort h0 hf h hmem hp
  · intro hs
    unfold findDoneDate
    rw [Option.map_eq_none', List.find?_eq_none]
    constructor
    · intro hnone h hmem
      simpa using hnone h hmem
    · intro hall h hmem
      simp [hall h hmem]
  · intro issues r
    simp only [calculate_cycle_time, List.mem_filterMap, Option.map_eq_some']
    constructor
    · rintro ⟨i, hi, d, hd, hr⟩
      exact ⟨i, hi, d, hd, hr.symm⟩
    · rintro ⟨i, hi, d, hd, hr⟩
      exact ⟨i, hi, d, hd, hr.symm⟩

/-- Witness for C2 at a concrete single-history changelog. -/
theorem C2_amended_witness :
    List.Sorted (fun a b : History => a.created ≤ b.created)
      [⟨5, [⟨"status", "Done"⟩]⟩] ∧
    (∃ h ∈ [(⟨5, [⟨"status", "Done"⟩]⟩ : History)],
      h.items.any isDoneItem = true ∧ h.created = 5) :=
  ⟨List.sorted_singleton _,
   (C2_first_done_scan_amended.1 _ (List.sorted_singleton _) 5 (by decide)).1⟩

/-- An issue worth 5 points that was done on day 1, reopened on day 2 and
done again on day 3. -/
def reopenedIssue : ScrumIssue :=
  { key := "S-1"
    created := 0
    customfield_story_points := some 5
    histories :=
      [⟨1, [⟨"status", "Done"⟩]⟩,
       ⟨2, [⟨"status", "In Progress"⟩]⟩,
       ⟨3, [⟨"status", "Done"⟩]⟩] }

/-- C3: the burndown accumulator adds an issue's points once per DONE
transition event dated at or before the day, not once per issue, so the
done-reopened-done issue above is counted twice (10 of 5 points) by day 3
and the chart's remaining points go negative — the claim's
first-DONE-transition sum gives 5 and remaining 0. -/
theorem C3_burndown_counts_events_not_issues :
    points_completed_by_date [reopenedIssue] 3 = 10 ∧
    cumulative_completed_spec [reopenedIssue] 3 = 5 ∧
    ((create_burndown_rows [reopenedIssue] 0).getD 3 ⟨0, 0, 0⟩).remaining_points = -5 := by
  refine ⟨?_, ?_, ?_⟩
  · simp +decide [points_completed_by_date, reopenedIssue, isDoneItem, isDoneStatus]
    norm_num
  · simp +decide [cumulative_completed_spec, findDoneDateSorted, sortHistories,
      findDoneDate, reopenedIssue, isDoneItem, isDoneStatus]
  · simp +decide [create_burndown_rows, List.getD_eq_getElem?_getD, List.getElem?_map,
      List.getElem?_range, points_completed_by_date, reopenedIssue, isDoneItem,
      isDoneStatus]

/-! ## Empty story sets in PI aggregation (claim C1) -/

/-- A feature whose story query will return zero records. -/
def emptyStoriesFeature : RawIssue :=
  { key := "F-1"
    summary := "f"
    status := "To Do"
    labels := ["PI-4_ART1"]
    assignee := none
    created := 0
    updated := 0
    customfield_10003 := none
    customfield_20403 := none
    customfield_11702 := none
    epic_link := none }

/-- C1: a feature with zero story records makes `pd.DataFrame([])` — a frame
with no columns — so the very first column access raises `KeyError` and both
aggregators error out instead of letting the feature contribute 0.  Only the
zero-FEATURES case returns the zero-valued empty dict without error. -/
theorem C1_empty_story_query_raises :
    get_pi_metrics [emptyStoriesFeature] (fun _ => []) none =
      .error "KeyError: status" ∧
    get_pi_metrics [emptyStoriesFeature] (fun _ => []) (some "WS1") =
      .error "KeyError: workstream" ∧
    get_pi_objectives_data [emptyStoriesFeature] (fun _ => []) =
      .error "KeyError: story_points" ∧
    get_pi_metrics [] (fun _ => []) none = .ok none ∧
    get_pi_objectives_data [] (fun _ => []) = .ok [] := by decide

/-! ## Rate bounds (claim C4) -/

theorem completion_rate_bounds {c t : ℚ} (h0 : 0 ≤ c) (h1 : c ≤ t) :
    0 ≤ completion_rate c t ∧ completion_rate c t ≤ 100 := by
  by_cases ht : 0 < t
  · rw [completion_rate, if_pos ht]
    refine ⟨mul_nonneg (div_nonneg h0 ht.le) (by norm_num), ?_⟩
    have hdiv : c / t ≤ 1 := (div_le_one ht).mpr h1
    nlinarith
  · rw [completion_rate, if_neg ht]
    exact ⟨le_refl 0, by norm_num⟩

theorem completion_rate_denom_zero {c : ℚ} : completion_rate c 0 = 0 := by
  rw [completion_rate, if_neg (lt_irrefl 0)]

theorem dfFilterDone_ok {df df' : StoriesDF} (h : dfFilterDone df = .ok df') :
    df'.rows = df.rows.filter (fun s => isDoneStatus s.status) := by
  unfold dfFilterDone at h
  split at h
  · cases h; rfl
  · cases h

theorem dfFilterWorkstream_ok {df df' : StoriesDF} {w : String}
    (h : dfFilterWorkstream df w = .ok df') :
    df'.rows = df.rows.filter (fun s => s.workstream = w) := by
  unfold dfFilterWorkstream at h
  split at h
  · cases h; rfl
  · cases h

theorem dfSumPoints_ok {df : StoriesDF} {q : ℚ} (h : dfSumPoints df = .ok q) :
    q = (df.rows.map Story.story_points).sum := by
  unfold dfSumPoints at h
  split at h
  · cases h; rfl
  · cases h

theorem sum_points_nonneg {rows : List Story} (h : ∀ s ∈ rows, 0 ≤ s.story_points) :
    0 ≤ (rows.map Story.story_points).sum := by
  refine List.sum_nonneg ?_
  intro x hx
  obtain ⟨s, hs, rfl⟩ := List.mem_map.mp hx
  exact h s hs

theorem sum_points_filter_le {rows : List Story} {p : Story → Bool}
    (h : ∀ s ∈ rows, 0 ≤ s.story_points) :
    ((rows.filter p).map Story.story_points).sum ≤ (rows.map Story.story_points).sum := by
  refine List.Sublist.sum_le_sum ((List.filter_sublist rows).map Story.story_points) ?_
  intro x hx
  obtain ⟨s, hs, rfl⟩ := List.mem_map.mp hx
  exact h s hs

/-- The invariant the per-feature loop of `get_pi_metrics` maintains. -/
def TotalsInv (t : StoryTotals) : Prop :=
  t.completed_stories ≤ t.total_stories ∧
  0 ≤ t.completed_story_points ∧
  t.completed_story_points ≤ t.total_story_points

theorem pi_metrics_step_inv {ws : Option String} {acc acc' : StoryTotals}
    {rows : List Story} (hrows : ∀ s ∈ rows, 0 ≤ s.story_points)
    (hinv : TotalsInv acc) (h : pi_metrics_step ws acc rows = .ok acc') :
    TotalsInv acc' := by
  simp only [pi_metrics_step] at h
  split at h
  · exact Except.noConfusion h
  · rename_i sdf heq
    have hsub : sdf.rows.Sublist rows := by
      cases ws with
      | none =>
        cases heq
        exact List.Sublist.refl _
      | some w =>
        have heq2 : (if w = "" then Except.ok (pdDataFrame rows)
            else dfFilterWorkstream (pdDataFrame rows) w) = Except.ok sdf := heq
        by_cases hw : w = ""
        · rw [if_pos hw] at heq2
          cases heq2
          exact List.Sublist.refl _
        · rw [if_neg hw] at heq2
          rw [dfFilterWorkstream_ok heq2]
          exact List.filter_sublist _
    have hrows' : ∀ s ∈ sdf.rows, 0 ≤ s.story_points :=
      fun s hs => hrows s (hsub.subset hs)
    split at h
    · exact Except.noConfusion h
    · rename_i done_df hdone
      split at h
      · exact Except.noConfusion h
      · rename_i tp htp
        split at h
        · exact Except.noConfusion h
        · rename_i cp hcp
          cases h
          have hdrows := dfFilterDone_ok hdone
          have htp' := dfSumPoints_ok htp
          have hcp' := dfSumPoints_ok hcp
          refine ⟨?_, ?_, ?_⟩
          · have hlen : done_df.rows.length ≤ sdf.rows.length := by
              rw [hdrows]
              exact List.length_filter_le _ _
            exact Nat.add_le_add hinv.1 hlen
          · have hcp0 : 0 ≤ cp := by
              rw [hcp', hdrows]
              refine sum_points_nonneg ?_
              intro s hs
              exact hrows' s ((List.filter_sublist _).subset hs)
            exact add_nonneg hinv.2.1 hcp0
          · have hle : cp ≤ tp := by
              rw [hcp', htp', hdrows]
              exact sum_points_filter_le hrows'
            exact add_le_add hinv.2.2 hle

theorem pi_metrics_loop_inv {ws : Option String} {stories : String → List RawIssue}
    (hpts : ∀ key : String, ∀ i ∈ stories key, (0:ℚ) ≤ i.customfield_10003.getD 0) :
    ∀ (fs : List Feature) (acc acc' : StoryTotals), TotalsInv acc →
      pi_metrics_loop ws stories fs acc = .ok acc' → TotalsInv acc' := by
  intro fs
  induction fs with
  | nil =>
    intro acc acc' hinv h
    simp only [pi_metrics_loop] at h
    cases h
    exact hinv
  | cons f fs ih =>
    intro acc acc' hinv h
    simp only [pi_metrics_loop] at h
    cases hstep : pi_metrics_step ws acc (get_stories_for_feature (stories f.key) f.key) with
    | error e =>
      rw [hstep] at h
      exact Except.noConfusion h
    | ok acc₁ =>
      rw [hstep] at h
      have hrows : ∀ s ∈ get_stories_for_feature (stories f.key) f.key,
          0 ≤ s.story_points := by
        intro s hs
        simp only [get_stories_for_feature] at hs
        obtain ⟨i, hi, rfl⟩ := List.mem_map.mp hs
        exact hpts f.key i hi
      exact ih acc₁ acc' (pi_metrics_step_inv hrows hinv hstep) h

/-- The invariant of the `(total, completed)` pair in `get_pi_objectives_data`. -/
def PairInv (tc : ℚ × ℚ) : Prop := 0 ≤ tc.2 ∧ tc.2 ≤ tc.1

theorem objectives_step_inv {acc acc' : ℚ × ℚ} {rows : List Story}
    (hrows : ∀ s ∈ rows, 0 ≤ s.story_points) (hinv : PairInv acc)
    (h : objectives_step acc rows = .ok acc') : PairInv acc' := by
  simp only [objectives_step] at h
  split at h
  · exact Except.noConfusion h
  · rename_i tp htp
    split at h
    · exact Except.noConfusion h
    · rename_i done_df hdone
      split at h
      · exact Except.noConfusion h
      · rename_i cp hcp
        cases h
        have hdrows := dfFilterDone_ok hdone
        have htp' := dfSumPoints_ok htp
        have hcp' := dfSumPoints_ok hcp
        have hcp0 : 0 ≤ cp := by
          rw [hcp', hdrows]
          refine sum_points_nonneg ?_
          intro s hs
          exact hrows s ((List.filter_sublist _).subset hs)
        have hle : cp ≤ tp := by
          rw [hcp', htp', hdrows]
          exact sum_points_filter_le hrows
        exact ⟨add_nonneg hinv.1 hcp0, add_le_add hinv.2 hle⟩

theorem objectives_loop_inv {stories : String → List RawIssue}
    (hpts : ∀ key : String, ∀ i ∈ stories key, (0:ℚ) ≤ i.customfield_10003.getD 0) :
    ∀ (fs : List Feature) (acc acc' : ℚ × ℚ), PairInv acc →
      objectives_loop stories fs acc = .ok acc' → PairInv acc' := by
  intro fs
  induction fs with
  | nil =>
    intro acc acc' hinv h
    simp only [objectives_loop] at h
    cases h
    exact hinv
  | cons f fs ih =>
    intro acc acc' hinv h
    simp only [objectives_loop] at h
    cases hstep : objectives_step acc (get_stories_for_feature (stories f.key) f.key) with
    | error e =>
      rw [hstep] at h
      exact Except.noConfusion h
    | ok acc₁ =>
      rw [hstep] at h
      have hrows : ∀ s ∈ get_stories_for_feature (stories f.key) f.key,
          0 ≤ s.story_points := by
        intro s hs
        simp only [get_stories_for_feature] at hs
        obtain ⟨i, hi, rfl⟩ := List.mem_map.mp hs
        exact hpts f.key i hi
      exact ih acc₁ acc' (objectives_step_inv hrows hinv hstep) h

theorem art_objectives_props {stories : String → List RawIssue} {features : List Feature}
    {a : String} {d : ArtObjectives}
    (hpts : ∀ key : String, ∀ i ∈ stories key, (0:ℚ) ≤ i.customfield_10003.getD 0)
    (h : art_objectives stories features a = .ok d) :
    (0 ≤ d.feature_predictability ∧ d.feature_predictability ≤ 100) ∧
    (0 ≤ d.points_predictability ∧ d.points_predictability ≤ 100) ∧
    (d.committed_features = 0 → d.feature_predictability = 0) ∧
    (d.committed_points = 0 → d.points_predictability = 0) := by
  simp only [art_objectives] at h
  split at h
  · exact Except.noConfusion h
  · rename_i tc heq
    cases h
    have hinv : PairInv tc :=
      objectives_loop_inv hpts _ (0, 0) tc ⟨le_refl 0, le_refl 0⟩ heq
    refine ⟨?_, ?_, ?_, ?_⟩
    · exact completion_rate_bounds (Nat.cast_nonneg _)
        (Nat.cast_le.mpr (List.length_filter_le _ _))
    · exact completion_rate_bounds hinv.1 hinv.2
    · intro h0
      have hc : (((features.filter (fun f => f.art = some a)).length : ℕ) : ℚ) = 0 := by
        exact_mod_cast h0
      simp only [hc, completion_rate_denom_zero]
    · intro h0
      have h0' : tc.1 = 0 := h0
      simp only [h0', completion_rate_denom_zero]

theorem objectives_arts_loop_mem {stories : String → List RawIssue}
    {features : List Feature} :
    ∀ (arts : List String) (l : List (String × ArtObjectives)),
      objectives_arts_loop stories features arts = .ok l →
      ∀ p ∈ l, art_objectives stories features p.1 = .ok p.2 := by
  intro arts
  induction arts with
  | nil =>
    intro l h p hp
    simp only [objectives_arts_loop] at h
    cases h
    simp at hp
  | cons a as ih =>
    intro l h p hp
    simp only [objectives_arts_loop] at h
    split at h
    · exact Except.noConfusion h
    · rename_i d hd
      split at h
      · exact Except.noConfusion h
      · rename_i rest hrest
        cases h
        rcases List.mem_cons.mp hp with rfl | hp'
        · exact hd
        · exact ih rest hrest p hp'

/-- The invariant the velocity accumulator dictionary maintains. -/
def AggInv (v : SprintAgg) : Prop := 0 ≤ v.completed_points ∧ v.completed_points ≤ v.total_points

theorem assocUpdate_inv {P : SprintAgg → Prop} {f : SprintAgg → SprintAgg}
    {init : SprintAgg} {k : String} :
    ∀ m : List (String × SprintAgg), (∀ p ∈ m, P p.2) → (∀ v, P v → P (f v)) → P init →
      ∀ p ∈ assocUpdate m k f init, P p.2 := by
  intro m
  induction m with
  | nil =>
    intro _ hf hi p hp
    simp only [assocUpdate, List.mem_singleton] at hp
    subst hp
    exact hf init hi
  | cons q rest ih =>
    intro hm hf hi p hp
    obtain ⟨k0, v⟩ := q
    simp only [assocUpdate] at hp
    by_cases hk : k0 = k
    · rw [if_pos hk] at hp
      rcases List.mem_cons.mp hp with rfl | hp'
      · exact hf v (hm (k0, v) (List.mem_cons_self _ _))
      · exact hm p (List.mem_cons_of_mem _ hp')
    · rw [if_neg hk] at hp
      rcases List.mem_cons.mp hp with rfl | hp'
      · exact hm (k0, v) (List.mem_cons_self _ _)
      · exact ih (fun r hr => hm r (List.mem_cons_of_mem _ hr)) hf hi p hp'

theorem velocity_fold_inv {i : SprintIssue}
    (hpt : (0:ℚ) ≤ i.customfield_story_points.getD 0)
    {acc : List (String × SprintAgg)} (hm : ∀ p ∈ acc, AggInv p.2) :
    ∀ p ∈ velocity_fold acc i, AggInv p.2 := by
  intro p hp
  rw [velocity_fold] at hp
  split at hp
  · exact hm p hp
  · split at hp
    · exact hm p hp
    · refine assocUpdate_inv acc hm ?_ ⟨le_refl 0, le_refl 0⟩ p hp
      intro v hv
      by_cases hd : isDoneStatus i.status = true
      · rw [if_pos hd]
        exact ⟨add_nonneg hv.1 hpt, add_le_add hv.2 (le_refl _)⟩
      · rw [if_neg hd]
        exact ⟨hv.1, hv.2.trans (le_add_of_nonneg_right hpt)⟩

theorem foldl_velocity_inv :
    ∀ (issues : List SprintIssue) (acc : List (String × SprintAgg)),
      (∀ i ∈ issues, (0:ℚ) ≤ i.customfield_story_points.getD 0) →
      (∀ p ∈ acc, AggInv p.2) →
      ∀ p ∈ issues.foldl velocity_fold acc, AggInv p.2 := by
  intro issues
  induction issues with
  | nil =>
    intro acc _ hm p hp
    exact hm p hp
  | cons i is ih =>
    intro acc hpts hm p hp
    exact ih (velocity_fold acc i) (fun j hj => hpts j (List.mem_cons_of_mem _ hj))
      (velocity_fold_inv (hpts i (List.mem_cons_self _ _)) hm) p hp

/-- A feature and a story for the C4 concrete run: one story of 5 points,
still "To Do". -/
def c4Feature : RawIssue :=
  { key := "F-2"
    summary := "f"
    status := "To Do"
    labels := ["PI-4_ART1"]
    assignee := none
    created := 0
    updated := 0
    customfield_10003 := none
    customfield_20403 := none
    customfield_11702 := none
    epic_link := none }

/-- The single raw story issue of the C4 concrete run. -/
def c4Story : RawIssue :=
  { key := "S-2"
    summary := "s"
    status := "To Do"
    labels := []
    assignee := none
    created := 0
    updated := 0
    customfield_10003 := some 5
    customfield_20403 := none
    customfield_11702 := none
    epic_link := none }

/-- The metrics dictionary `get_pi_metrics` produces for the C4 run. -/
def c4Metrics : PIMetrics :=
  { total_features := 1
    completed_features := 0
    total_stories := 1
    completed_stories := 0
    total_story_points := 5
    completed_story_points := 0
    feature_completion_rate := 0
    story_completion_rate := 0
    story_points_completion_rate := 0 }

/-- C4 counterexample: on a PI with one incomplete 5-point story every rate
is 0 while the denominators (1 story, 5 points) are nonzero — so a rate of 0
does NOT imply a zero denominator, refuting the claim's "exactly when". -/
theorem C4_zero_rate_with_nonzero_denominator :
    get_pi_metrics [c4Feature] (fun _ => [c4Story]) none = .ok (some c4Metrics) ∧
    c4Metrics.story_completion_rate = 0 ∧ c4Metrics.total_stories ≠ 0 ∧
    c4Metrics.story_points_completion_rate = 0 ∧ c4Metrics.total_story_points ≠ 0 := by
  refine ⟨?_, rfl, by norm_num [c4Metrics], rfl, by norm_num [c4Metrics]⟩
  simp +decide [get_pi_metrics, get_features_by_pi, mkFeature, pi_metrics_loop,
    pi_metrics_step, get_stories_for_feature, mkStoryRow, pdDataFrame, dfFilterDone,
    dfSumPoints, isDoneStatus, c4Feature, c4Story, c4Metrics, completion_rate,
    get_workstream_safe]

/-- C4 (amended): every rollup rate is computed by the guarded expression
`(completed / total) * 100 if total > 0 else 0`, so — whenever the story
points fed in are nonnegative — it lies in `[0, 100]` and equals 0 whenever
its denominator is 0 (it can also be 0 with a nonzero denominator, when
nothing is completed); the guard means a division error never occurs.
Stated for the three `get_pi_metrics` rates, the two `get_pi_objectives_data`
predictabilities and the per-sprint velocity completion rate. -/
theorem C4_rates_amended :
    (∀ (feature_issues : List RawIssue) (stories : String → List RawIssue)
        (ws : Option String) (m : PIMetrics),
      (∀ key : String, ∀ i ∈ stories key, (0:ℚ) ≤ i.customfield_10003.getD 0) →
      get_pi_metrics feature_issues stories ws = .ok (some m) →
        (0 ≤ m.feature_completion_rate ∧ m.feature_completion_rate ≤ 100) ∧
        (0 ≤ m.story_completion_rate ∧ m.story_completion_rate ≤ 100) ∧
        (0 ≤ m.story_points_completion_rate ∧ m.story_points_completion_rate ≤ 100) ∧
        (m.total_features = 0 → m.feature_completion_rate = 0) ∧
        (m.total_stories = 0 → m.story_completion_rate = 0) ∧
        (m.total_story_points = 0 → m.story_points_completion_rate = 0)) ∧
    (∀ (feature_issues : List RawIssue) (stories : String → List RawIssue)
        (l : List (String × ArtObjectives)),
      (∀ key : String, ∀ i ∈ stories key, (0:ℚ) ≤ i.customfield_10003.getD 0) →
      get_pi_objectives_data feature_issues stories = .ok l →
      ∀ p ∈ l,
        (0 ≤ p.2.feature_predictability ∧ p.2.feature_predictability ≤ 100) ∧
        (0 ≤ p.2.points_predictability ∧ p.2.points_predictability ≤ 100) ∧
        (p.2.committed_features = 0 → p.2.feature_predictability = 0) ∧
        (p.2.committed_points = 0 → p.2.points_predictability = 0)) ∧
    (∀ (issues : List SprintIssue) (n : ℕ) (vp : VelocityPoint),
      (∀ i ∈ issues, (0:ℚ) ≤ i.customfield_story_points.getD 0) →
      vp ∈ calculate_team_velocity issues n →
        (0 ≤ vp.completion_rate ∧ vp.completion_rate ≤ 100) ∧
        (vp.planned_points = 0 → vp.completion_rate = 0)) := by
  refine ⟨?_, ?_, ?_⟩
  · intro fi stories ws m hpts hok
    simp only [get_pi_metrics, get_features_by_pi] at hok
    split at hok
    · simp at hok
    · split at hok
      · exact Except.noConfusion hok
      · rename_i t heq
        cases hok
        have hinv : TotalsInv t :=
          pi_metrics_loop_inv hpts _ ⟨0, 0, 0, 0⟩ t ⟨Nat.le_refl 0, le_refl 0, le_refl 0⟩ heq
        refine ⟨?_, ?_, ?_, ?_, ?_, ?_⟩
        · exact completion_rate_bounds (Nat.cast_nonneg _)
            (Nat.cast_le.mpr (List.length_filter_le _ _))
        · exact completion_rate_bounds (Nat.cast_nonneg _) (Nat.cast_le.mpr hinv.1)
        · exact completion_rate_bounds hinv.2.1 hinv.2.2
        · intro h0
          have hc : (((fi.map mkFeature).length : ℕ) : ℚ) = 0 := by exact_mod_cast h0
          simp only [hc, completion_rate_denom_zero]
        · intro h0
          have hc : ((t.total_stories : ℕ) : ℚ) = 0 := by exact_mod_cast h0
          simp only [hc, completion_rate_denom_zero]
        · intro h0
          have h0' : t.total_story_points = 0 := h0
          simp only [h0', completion_rate_denom_zero]
  · intro fi stories l hpts hok p hp
    simp only [get_pi_objectives_data, get_features_by_pi] at hok
    split at hok
    · cases hok
      simp at hp
    · exact art_objectives_props hpts (objectives_arts_loop_mem _ _ hok p hp)
  · intro issues n vp hpts hmem
    simp only [calculate_team_velocity] at hmem
    obtain ⟨p, hp, rfl⟩ := List.mem_map.mp hmem
    have hkept : p ∈ issues.foldl velocity_fold [] := by
      revert hp
      split
      · exact fun hp => hp
      · exact fun hp => List.drop_subset _ _ hp
    have hinv : AggInv p.2 := foldl_velocity_inv issues [] hpts (by simp) p hkept
    refine ⟨completion_rate_bounds hinv.1 hinv.2, ?_⟩
    intro h0
    have h0' : p.2.total_points = 0 := h0
    simp only [h0', completion_rate_denom_zero]

/-- Witness for C4 (amended) at the concrete one-feature, one-story run. -/
theorem C4_amended_witness :
    (0 ≤ c4Metrics.feature_completion_rate ∧ c4Metrics.feature_completion_rate ≤ 100) ∧
    (0 ≤ c4Metrics.story_completion_rate ∧ c4Metrics.story_completion_rate ≤ 100) ∧
    (0 ≤ c4Metrics.story_points_completion_rate ∧
      c4Metrics.story_points_completion_rate ≤ 100) ∧
    (c4Metrics.total_features = 0 → c4Metrics.feature_completion_rate = 0) ∧
    (c4Metrics.total_stories = 0 → c4Metrics.story_completion_rate = 0) ∧
    (c4Metrics.total_story_points = 0 → c4Metrics.story_points_completion_rate = 0) := by
  refine C4_rates_amended.1 [c4Feature] (fun _ => [c4Story]) none c4Metrics ?_ ?_
  · intro k i hi
    simp only [List.mem_singleton] at hi
    subst hi
    norm_num [c4Story]
  · simp +decide [get_pi_metrics, get_features_by_pi, mkFeature, pi_metrics_loop,
      pi_metrics_step, get_stories_for_feature, mkStoryRow, pdDataFrame, dfFilterDone,
      dfSumPoints, isDoneStatus, c4Feature, c4Story, c4Metrics, completion_rate,
      get_workstream_safe]
